import Mathlib

/-!
Shallow embedding of the realtime video-list synchronization engine of the
text-2-reel mobile client (src/hooks/useVideos.ts, src/unnamed/part_008 alias
VideosProvider, src/unnamed/part_001 alias useBalance, src/contexts/VideoContext.tsx,
src/constants/constants.ts).

Store records are modelled after the runtime shape of `VideoRecord`
(constants.ts): nullable columns are `Option`, the optional
`signed_url_loading?: boolean` is `Option Bool` (`none` = JS `undefined`).
Realtime broadcast payloads are untyped JS objects in the source, so each
payload field is a `JField`: absent from the object, present as `null`, or
present with a value.  JS truthiness (`""`, `0`, `null`, `undefined` are
falsy) and spread (`{...v, ...record}`) semantics are made explicit.
-/

namespace TextToReel

/-- A field of an untyped JS payload object: missing key, explicit `null`,
or a value. -/
inductive JField (α : Type) where
  | absent
  | null
  | val (a : α)
deriving DecidableEq, Repr

/-- JS truthiness of a string-valued payload field: `undefined`, `null` and
`""` are falsy. -/
def JField.truthyStr : JField String → Bool
  | .val s => !(s == "")
  | _ => false

/-- JS truthiness of a number-valued payload field: `undefined`, `null` and
`0` are falsy. -/
def JField.truthyNat : JField Nat → Bool
  | .val n => !(n == 0)
  | _ => false

/-- JS `f || d` for a string payload field: falsy values fall through to the
default. -/
def JField.orStr (f : JField String) (d : String) : String :=
  match f with
  | .val s => if s == "" then d else s
  | _ => d

/-- JS `f || null` for a nullable string column: falsy values become null. -/
def JField.orNullStr (f : JField String) : Option String :=
  match f with
  | .val s => if s == "" then none else some s
  | _ => none

/-- JS `f || null` for a nullable number column. -/
def JField.orNullNat (f : JField Nat) : Option Nat :=
  match f with
  | .val n => if n == 0 then none else some n
  | _ => none

/-- JS object spread `{...old, ...new}` restricted to one field: an absent
payload field keeps the stored value, a present field (null or not)
overwrites it. -/
def JField.spread {α : Type} (f : JField α) (old : Option α) : Option α :=
  match f with
  | .absent => old
  | .null => none
  | .val a => some a

/-- JS truthiness of a stored nullable string field. -/
def optTruthy : Option String → Bool
  | some s => !(s == "")
  | none => false

/-- Runtime shape of a store entry (interface `VideoRecord` in
src/constants/constants.ts).  String columns are `Option String` because the
`as VideoRecord` casts in the handlers let payload `null`s flow into them;
`signed_url_loading` is declared optional in the interface. -/
structure VideoRecord where
  id : String
  user_id : Option String
  prompt : Option String
  status : Option String
  bucket_path : Option String
  signed_url : Option String
  signed_url_loading : Option Bool
  duration : Option Nat
  created_at : Option String
  completed_at : Option String
  error_message : Option String
deriving DecidableEq, Repr

/-- A realtime broadcast payload record, after the handler envelope
extraction.  The handlers only act when `record.id` is truthy, so `id` is a
plain string; every other field of the untyped object is a `JField`. -/
structure BRecord where
  id : String
  user_id : JField String
  prompt : JField String
  status : JField String
  bucket_path : JField String
  signed_url : JField String
  duration : JField Nat
  created_at : JField String
  completed_at : JField String
  error_message : JField String
deriving DecidableEq, Repr

/-- The INSERT broadcast merge for an already-present entry
(useVideos.ts:249-259): `{...v, ...record, signed_url_loading:
v.signed_url_loading ?? (record.status === "completed" && !record.signed_url
? true : false)}`. -/
def insertMerge (r : BRecord) (v : VideoRecord) : VideoRecord :=
  { id := r.id
    user_id := r.user_id.spread v.user_id
    prompt := r.prompt.spread v.prompt
    status := r.status.spread v.status
    bucket_path := r.bucket_path.spread v.bucket_path
    signed_url := r.signed_url.spread v.signed_url
    signed_url_loading :=
      some (v.signed_url_loading.getD
        (r.status == JField.val "completed" && !r.signed_url.truthyStr))
    duration := r.duration.spread v.duration
    created_at := r.created_at.spread v.created_at
    completed_at := r.completed_at.spread v.completed_at
    error_message := r.error_message.spread v.error_message }

/-- The fully-defaulted record the INSERT handler constructs for an id not
yet in the collection (useVideos.ts:263-276); `now` is
`new Date().toISOString()`. -/
def defaultRecord (r : BRecord) (now : String) : VideoRecord :=
  { id := r.id
    user_id := some (r.user_id.orStr "")
    prompt := some (r.prompt.orStr "")
    status := some (r.status.orStr "processing")
    bucket_path := r.bucket_path.orNullStr
    signed_url := r.signed_url.orNullStr
    signed_url_loading := some false
    duration := r.duration.orNullNat
    created_at := some (r.created_at.orStr now)
    completed_at := r.completed_at.orNullStr
    error_message := r.error_message.orNullStr }

/-- The synchronous `setVideos` updater of the INSERT broadcast handler
(useVideos.ts:246-279): merge into the existing entry if the id is present,
otherwise prepend a fully-defaulted record. -/
def applyInsert (r : BRecord) (now : String) (prev : List VideoRecord) :
    List VideoRecord :=
  if prev.any (fun v => v.id == r.id) then
    prev.map (fun v => if v.id == r.id then insertMerge r v else v)
  else
    defaultRecord r now :: prev

/-- The UPDATE broadcast merge for one entry (useVideos.ts:356-381):
spread-merge, then clear the signed URL when the payload status is truthy
and not `"completed"`, else adjust the loading flag when the payload says
completed-with-bucket-path. -/
def updateMerge (r : BRecord) (v : VideoRecord) : VideoRecord :=
  let merged : VideoRecord :=
    { id := r.id
      user_id := r.user_id.spread v.user_id
      prompt := r.prompt.spread v.prompt
      status := r.status.spread v.status
      bucket_path := r.bucket_path.spread v.bucket_path
      signed_url := r.signed_url.spread v.signed_url
      signed_url_loading := v.signed_url_loading
      duration := r.duration.spread v.duration
      created_at := r.created_at.spread v.created_at
      completed_at := r.completed_at.spread v.completed_at
      error_message := r.error_message.spread v.error_message }
  if r.status.truthyStr && !(r.status == JField.val "completed") then
    { merged with signed_url := none, signed_url_loading := some false }
  else if r.status == JField.val "completed" && r.bucket_path.truthyStr then
    { merged with
        signed_url_loading :=
          some (v.signed_url_loading.getD
            (merged.signed_url_loading.getD false)) }
  else
    merged

/-- The synchronous `setVideos` updater of the UPDATE broadcast handler
(useVideos.ts:355-382): entries with other ids are untouched. -/
def applyUpdate (r : BRecord) (prev : List VideoRecord) : List VideoRecord :=
  prev.map (fun v => if v.id == r.id then updateMerge r v else v)

/-- The DELETE broadcast handler `setVideos` updater
(useVideos.ts:551-554). -/
def applyDelete (i : String) (prev : List VideoRecord) : List VideoRecord :=
  prev.filter (fun v => !(v.id == i))

/-- Constant `VIDEOS_PER_PAGE` (src/constants/constants.ts). -/
def VIDEOS_PER_PAGE : Nat := 10

/-- Constant `VIDEO_FETCH_CHUNK_SIZE` (src/constants/constants.ts). -/
def VIDEO_FETCH_CHUNK_SIZE : Nat := 5

/-- One video of a fetched page run through the signed-URL enrichment
(useVideos.ts:34-69).  `resolve` is the oracle for
`getSignedUrlAndDownload`: `.ok url` is a resolved URL, `.error` a thrown
rejection; the catch branch keeps `video.signed_url ?? null`. -/
def processOne (resolve : VideoRecord → Except Unit String)
    (v : VideoRecord) : VideoRecord :=
  if v.status == some "completed" && optTruthy v.bucket_path then
    match resolve v with
    | .ok url => { v with signed_url := some url, signed_url_loading := some false }
    | .error _ => { v with signed_url := v.signed_url, signed_url_loading := some false }
  else
    { v with signed_url := none, signed_url_loading := some false }

/-- Function `processVideosWithSignedUrls` (useVideos.ts:24-76): the page is walked
in chunks of `VIDEO_FETCH_CHUNK_SIZE`, each chunk resolved and appended. -/
def processVideosWithSignedUrls (resolve : VideoRecord → Except Unit String) :
    List VideoRecord → List VideoRecord
  | [] => []
  | a :: as =>
    ((a :: as).take VIDEO_FETCH_CHUNK_SIZE).map (processOne resolve) ++
      processVideosWithSignedUrls resolve ((a :: as).drop VIDEO_FETCH_CHUNK_SIZE)
termination_by l => l.length
decreasing_by simp [VIDEO_FETCH_CHUNK_SIZE]; omega

/-- The observable state of the video list store: the `useState`/`useRef`
cells of `useVideos` (useVideos.ts:16-21). -/
structure StoreState where
  videos : List VideoRecord
  loading : Bool
  loadingMore : Bool
  hasMore : Bool
  offset : Nat
  error : Option String
deriving DecidableEq, Repr

/-- The initial hook state (useVideos.ts:16-21). -/
def initialState : StoreState :=
  { videos := [], loading := true, loadingMore := false, hasMore := true
    offset := 0, error := none }

/-- Operation `fetchVideos(reset)` (useVideos.ts:78-175) run to completion as one
atomic step, parameterized by the backend page result (`.error msg` is a
query error) and the signed-URL oracle.  The `finally` block clears both
loading flags on every path that reaches the query. -/
def fetchVideos (hasUser : Bool) (reset : Bool)
    (backend : Except String (List VideoRecord))
    (resolve : VideoRecord → Except Unit String)
    (s : StoreState) : StoreState :=
  if !hasUser then { s with loading := false }
  else
    let s1 :=
      if reset then { s with loading := true, offset := 0, hasMore := true }
      else { s with loadingMore := true }
    match backend with
    | .error msg =>
        { s1 with error := some msg, loading := false, loadingMore := false }
    | .ok rows =>
        let s2 := if rows.length < VIDEOS_PER_PAGE then { s1 with hasMore := false } else s1
        let processed := processVideosWithSignedUrls resolve rows
        let s3 :=
          if reset then
            { s2 with videos := processed, offset := VIDEOS_PER_PAGE }
          else
            let newToAdd := processed.filter
              (fun v => !(s2.videos.any (fun w => w.id == v.id)))
            { s2 with videos := s2.videos ++ newToAdd
                      offset := (s2.videos ++ newToAdd).length }
        { s3 with error := none, loading := false, loadingMore := false }

/-- Operation `loadMore` (useVideos.ts:177-183).  The second component records
whether a `fetchVideos(false)` call was actually made. -/
def loadMore (hasUser : Bool) (backend : Except String (List VideoRecord))
    (resolve : VideoRecord → Except Unit String)
    (s : StoreState) : StoreState × Bool :=
  if !s.hasMore || s.loadingMore || s.loading then (s, false)
  else (fetchVideos hasUser false backend resolve s, true)

/-- The synchronous prefix of `fetchVideos` up to the point where the
backend query is issued (useVideos.ts:80-108).  The second component is
whether a backend query was started: the function has no busy-flag guard,
so a query is issued whenever a user is present. -/
def fetchVideosStart (hasUser : Bool) (reset : Bool) (s : StoreState) :
    StoreState × Bool :=
  if !hasUser then ({ s with loading := false }, false)
  else if reset then
    ({ s with loading := true, offset := 0, hasMore := true }, true)
  else
    ({ s with loadingMore := true }, true)

/-- The async tail of the refetch branch of the UPDATE handler
(useVideos.ts:398-478) after the point fetch succeeded with row `data`:
when the row is completed with a bucket path, the loading flag is set true
and then cleared by both the resolution success continuation and its catch
handler; otherwise the row is merged in with the flag false. -/
def updateRefetchTail (data : VideoRecord) (outcome : Except Unit String)
    (prev : List VideoRecord) : List VideoRecord :=
  if data.status == some "completed" && optTruthy data.bucket_path then
    let s1 := prev.map (fun v =>
      if v.id == data.id then { v with signed_url_loading := some true } else v)
    match outcome with
    | .ok url =>
        s1.map (fun v =>
          if v.id == data.id then
            { data with signed_url := some url, signed_url_loading := some false }
          else v)
    | .error _ =>
        s1.map (fun v =>
          if v.id == data.id then { data with signed_url_loading := some false }
          else v)
  else
    prev.map (fun v =>
      if v.id == data.id then { data with signed_url_loading := some false }
      else v)

/-- The async tail of the direct-resolution branch of the UPDATE handler
(useVideos.ts:479-523): loading set true for the payload id, then cleared
by both the success continuation and the catch handler. -/
def updateDirectTail (r : BRecord) (outcome : Except Unit String)
    (prev : List VideoRecord) : List VideoRecord :=
  let s1 := prev.map (fun v =>
    if v.id == r.id then { v with signed_url_loading := some true } else v)
  match outcome with
  | .ok url =>
      s1.map (fun v =>
        if v.id == r.id then
          { v with signed_url := some url, signed_url_loading := some false }
        else v)
  | .error _ =>
      s1.map (fun v =>
        if v.id == r.id then { v with signed_url_loading := some false } else v)

/-- Operation `deleteVideo` (useVideos.ts:618-624): the backend delete is awaited
first; an error is thrown (second component) before `setVideos` runs. -/
def deleteVideo (backendErr : Option String) (videoId : String)
    (videos : List VideoRecord) : List VideoRecord × Option String :=
  match backendErr with
  | some e => (videos, some e)
  | none => (videos.filter (fun v => !(v.id == videoId)), none)

/-- Operation `deleteMultipleVideos` (useVideos.ts:626-632). -/
def deleteMultipleVideos (backendErr : Option String) (videoIds : List String)
    (videos : List VideoRecord) : List VideoRecord × Option String :=
  match backendErr with
  | some e => (videos, some e)
  | none => (videos.filter (fun v => !(videoIds.contains v.id)), none)

/-- Balance store state (src/unnamed/part_001, `useBalance`):
`balance`/`loading` React state and the `fetchingRef` busy flag. -/
structure BalanceState where
  balance : Option Int
  loading : Bool
  fetching : Bool
deriving DecidableEq, Repr

/-- Outcome of the profile query inside `fetchBalance`: a query error
object, a thrown rejection, or a row whose `balance` column may be null
(`data?.balance` is `none` when no row or a null column). -/
inductive BalanceOutcome where
  | queryError
  | thrown
  | ok (b : Option Int)
deriving DecidableEq, Repr

/-- Operation `fetchBalance` (src/unnamed/part_001:62-98) as one atomic step.  The
second component records whether a backend query was issued: the
`fetchingRef` busy flag suppresses re-entrant calls. -/
def fetchBalance (hasUser : Bool) (outcome : BalanceOutcome)
    (s : BalanceState) : BalanceState × Bool :=
  if !hasUser then
    ({ balance := none, loading := false, fetching := false }, false)
  else if s.fetching then (s, false)
  else
    let bal : Option Int :=
      match outcome with
      | .queryError => some 0
      | .thrown => some 0
      | .ok b => some (b.getD 0)
    ({ balance := bal, loading := false, fetching := false }, true)

/-- Channel-subscription state of `subscribeAndFetch`
(useVideos.ts:202-580): the closure flag `isSubscribed` and the number of
live channels created by `supabase.channel(...).subscribe(...)`. -/
structure SubState where
  isSubscribed : Bool
  channels : Nat
deriving DecidableEq, Repr

/-- A `subscribeAndFetch` call (useVideos.ts:204-212): guarded only by
`isSubscribed`; when the guard passes, a new channel is created and
subscribed. -/
def subscribeAndFetch (s : SubState) : SubState :=
  if s.isSubscribed then s else { s with channels := s.channels + 1 }

/-- The subscribe status callback (useVideos.ts:559-574): `SUBSCRIBED`
marks the subscription ready; `CHANNEL_ERROR`/`TIMED_OUT` mark it not
subscribed. -/
def subStatusReady (s : SubState) : SubState :=
  { s with isSubscribed := true }

/-- Auth events observed by the `onAuthStateChange` listener. -/
inductive AuthEvent where
  | tokenRefreshed
  | signedIn
  | signedOut
  | initialSession
deriving DecidableEq, Repr

/-- State touched by the `onAuthStateChange` listener of `useVideos`
(useVideos.ts:587-606): whether a realtime subscription exists
(`unsubscribeRealtime` is defined), counters of teardown and subscribe
calls issued by the listener, and the collection state it may reset. -/
structure RtState where
  subExists : Bool
  teardowns : Nat
  subscribeCalls : Nat
  videos : List VideoRecord
  offset : Nat
  hasMore : Bool
deriving DecidableEq, Repr

/-- The `onAuthStateChange` listener body (useVideos.ts:587-606). -/
def onAuthStateChange (ev : AuthEvent) (hasSessionUser : Bool)
    (s : RtState) : RtState :=
  if hasSessionUser && s.subExists && ev == AuthEvent.tokenRefreshed then s
  else
    let s1 :=
      if s.subExists then
        { s with subExists := false, teardowns := s.teardowns + 1 }
      else s
    if hasSessionUser && !(ev == AuthEvent.tokenRefreshed) then
      { s1 with subExists := true, subscribeCalls := s1.subscribeCalls + 1 }
    else if ev == AuthEvent.signedOut then
      { s1 with videos := [], offset := 0, hasMore := true }
    else s1

/-- One transition of the video list store, as used for reachability:
a completed paginated fetch, or one synchronous realtime merge. -/
inductive StoreOp where
  | fetch (hasUser reset : Bool) (backend : Except String (List VideoRecord))
      (resolve : VideoRecord → Except Unit String)
  | ins (r : BRecord) (now : String)
  | upd (r : BRecord)
  | del (i : String)

/-- Apply one store transition. -/
def runOp (op : StoreOp) (s : StoreState) : StoreState :=
  match op with
  | .fetch u rst b res => fetchVideos u rst b res s
  | .ins r now => { s with videos := applyInsert r now s.videos }
  | .upd r => { s with videos := applyUpdate r s.videos }
  | .del i => { s with videos := applyDelete i s.videos }

/-- Apply a sequence of store transitions. -/
def runOps (ops : List StoreOp) (s : StoreState) : StoreState :=
  ops.foldl (fun s op => runOp op s) s

/-- The per-record signed-URL invariant of the spec: a non-null
`signed_url` requires status `"completed"` and a non-null `bucket_path`. -/
def recUrlInv (v : VideoRecord) : Bool :=
  !v.signed_url.isSome || (v.status == some "completed" && v.bucket_path.isSome)

/-- The signed-URL invariant over the whole collection. -/
def storeUrlInv (s : StoreState) : Bool :=
  s.videos.all recUrlInv

/-- Well-formedness of a broadcast payload row, as delivered by
`realtime.broadcast_changes` for a database row: the `signed_url` column
is present, and when it is a non-empty string the row also carries status
`"completed"` and a non-empty `bucket_path`. -/
def wfRow (r : BRecord) : Bool :=
  match r.signed_url with
  | .absent => false
  | .null => true
  | .val u =>
      !(u == "") && r.status == JField.val "completed" &&
        (match r.bucket_path with
         | .val p => !(p == "")
         | _ => false)

/-- Well-formedness of the payload of a store transition: fetches and deletes
are unrestricted; realtime inserts and updates carry well-formed rows. -/
def opWF : StoreOp → Prop
  | .fetch _ _ _ _ => True
  | .ins r _ => wfRow r = true
  | .upd r => wfRow r = true
  | .del _ => True

/-- A broadcast payload carrying only an id, as in a minimal INSERT
replay. -/
def bareRow (i : String) : BRecord :=
  { id := i, user_id := JField.absent, prompt := JField.absent
    status := JField.absent, bucket_path := JField.absent
    signed_url := JField.absent, duration := JField.absent
    created_at := JField.absent, completed_at := JField.absent
    error_message := JField.absent }

/-- A partial broadcast payload that carries a signed URL but no status
and no bucket path. -/
def urlOnlyRow : BRecord :=
  { bareRow "a" with signed_url := JField.val "u" }

theorem insertMerge_id (r : BRecord) (v : VideoRecord) :
    (insertMerge r v).id = r.id := rfl

theorem defaultRecord_id (r : BRecord) (now : String) :
    (defaultRecord r now).id = r.id := rfl

theorem countP_map_insertMerge (r : BRecord) (prev : List VideoRecord) :
    (prev.map (fun v => if v.id == r.id then insertMerge r v else v)).countP
        (fun v => v.id == r.id) =
      prev.countP (fun v => v.id == r.id) := by
  induction prev with
  | nil => rfl
  | cons a as ih =>
      simp only [List.map_cons, List.countP_cons, ih]
      by_cases h : (a.id == r.id) = true
      · simp [h, insertMerge_id]
      · simp [h]

theorem countP_applyInsert (r : BRecord) (now : String)
    (prev : List VideoRecord)
    (h : prev.countP (fun v => v.id == r.id) ≤ 1) :
    (applyInsert r now prev).countP (fun v => v.id == r.id) = 1 := by
  unfold applyInsert
  by_cases hany : prev.any (fun v => v.id == r.id)
  · have hpos : 0 < prev.countP (fun v => v.id == r.id) := by
      rw [List.countP_pos_iff]
      exact List.any_eq_true.mp hany
    simp only [hany, if_true, countP_map_insertMerge]
    omega
  · have hzero : prev.countP (fun v => v.id == r.id) = 0 := by
      rw [List.countP_eq_zero]
      intro a ha
      have := List.any_eq_false.mp (Bool.not_eq_true _ ▸ hany)
      simpa using this a ha
    simp [hany, List.countP_cons, hzero, defaultRecord]

theorem countP_foldl_applyInsert (i : String)
    (recs : List (BRecord × String)) (prev : List VideoRecord)
    (hids : ∀ p ∈ recs, (p : BRecord × String).1.id = i)
    (hone : prev.countP (fun v => v.id == i) = 1) :
    ((recs.foldl (fun s p => applyInsert p.1 p.2 s) prev).countP
        (fun v => v.id == i)) = 1 := by
  induction recs generalizing prev with
  | nil => simpa using hone
  | cons p rest ih =>
      have hid : p.1.id = i := hids p (List.mem_cons_self _ _)
      have hstep : (applyInsert p.1 p.2 prev).countP
          (fun v => v.id == i) = 1 := by
        rw [← hid] at hone ⊢
        exact countP_applyInsert p.1 p.2 prev (le_of_eq hone)
      simpa using ih (applyInsert p.1 p.2 prev)
        (fun q hq => hids q (List.mem_cons_of_mem _ hq)) hstep

/-- Claim C1: replaying realtime INSERTs that all deliver records with one
and the same id into a store state holding at most one entry with that id
(as every state the store operations produce does) leaves exactly one
entry with that id: the handler merges into the existing entry instead of
prepending a duplicate. -/
theorem claim_C1_insert_dedup (i : String)
    (recs : List (BRecord × String)) (prev : List VideoRecord)
    (hne : recs ≠ [])
    (hids : ∀ p ∈ recs, (p : BRecord × String).1.id = i)
    (hdedup : prev.countP (fun v => v.id == i) ≤ 1) :
    ((recs.foldl (fun s p => applyInsert p.1 p.2 s) prev).countP
        (fun v => v.id == i)) = 1 := by
  match recs with
  | [] => exact absurd rfl hne
  | p :: rest =>
      have hid : p.1.id = i := hids p (List.mem_cons_self _ _)
      have hstep : (applyInsert p.1 p.2 prev).countP
          (fun v => v.id == i) = 1 := by
        rw [← hid] at hdedup ⊢
        exact countP_applyInsert p.1 p.2 prev hdedup
      simpa using countP_foldl_applyInsert i rest (applyInsert p.1 p.2 prev)
        (fun q hq => hids q (List.mem_cons_of_mem _ hq)) hstep

/-- Witness for C1: replaying the same minimal INSERT payload three times
into the empty collection leaves exactly one entry with its id. -/
theorem claim_C1_insert_dedup_witness :
    (([((bareRow "a"), "t"), ((bareRow "a"), "t"),
        ((bareRow "a"), "t")].foldl
         (fun s p => applyInsert p.1 p.2 s) []).countP
        (fun v => v.id == "a")) = 1 :=
  claim_C1_insert_dedup "a" _ [] (by decide)
    (by intro p hp; fin_cases hp <;> rfl) (by decide)

/-- A sample processing-state store entry. -/
def sampleVid (i : String) : VideoRecord :=
  { id := i, user_id := some "u1", prompt := some "p"
    status := some "processing", bucket_path := none, signed_url := none
    signed_url_loading := some false, duration := none
    created_at := some "t", completed_at := none, error_message := none }

/-- A sample completed store entry with a resolved signed URL. -/
def sampleDone (i : String) : VideoRecord :=
  { id := i, user_id := some "u1", prompt := some "p"
    status := some "completed", bucket_path := some "v/abc.mp4"
    signed_url := some "https://signed", signed_url_loading := some false
    duration := some 32, created_at := some "t", completed_at := some "t2"
    error_message := none }

/-- A signed-URL oracle that always rejects. -/
def noResolve : VideoRecord → Except Unit String :=
  fun _ => Except.error ()

/-- Claim C8: deleteVideo and deleteMultipleVideos remove entries from the
local collection only after the backend delete succeeds: on backend
failure the error is thrown to the caller and the collection is exactly as
before the call; on success exactly the targeted ids are gone and every
other entry is retained. -/
theorem claim_C8_server_confirmed_delete (e : String) (videoId : String)
    (videoIds : List String) (videos : List VideoRecord) :
    deleteVideo (some e) videoId videos = (videos, some e) ∧
    deleteMultipleVideos (some e) videoIds videos = (videos, some e) ∧
    (deleteVideo none videoId videos).2 = none ∧
    (∀ v ∈ (deleteVideo none videoId videos).1, ¬(v.id = videoId)) ∧
    (∀ v ∈ videos, ¬(v.id = videoId) → v ∈ (deleteVideo none videoId videos).1) ∧
    (deleteMultipleVideos none videoIds videos).2 = none ∧
    (∀ v ∈ (deleteMultipleVideos none videoIds videos).1, ¬(videoIds.contains v.id = true)) ∧
    (∀ v ∈ videos, ¬(videoIds.contains v.id = true) →
      v ∈ (deleteMultipleVideos none videoIds videos).1) := by
  refine ⟨rfl, rfl, rfl, ?_, ?_, rfl, ?_, ?_⟩
  · intro v hv
    have := (List.mem_filter.mp hv).2
    simpa using this
  · intro v hv hne
    exact List.mem_filter.mpr ⟨hv, by simpa using hne⟩
  · intro v hv
    have := (List.mem_filter.mp hv).2
    simpa using this
  · intro v hv hne
    exact List.mem_filter.mpr ⟨hv, by simpa using hne⟩

/-- Witness for C8: a failing backend delete leaves a one-entry collection
untouched and rethrows, while a successful one retains the non-matching
entry. -/
theorem claim_C8_server_confirmed_delete_witness :
    deleteVideo (some "boom") "a" [sampleVid "b"] = ([sampleVid "b"], some "boom") ∧
    ¬((sampleVid "b").id = "a") ∧
    sampleVid "b" ∈ (deleteVideo none "a" [sampleVid "b"]).1 :=
  ⟨(claim_C8_server_confirmed_delete "boom" "a" ["a"] [sampleVid "b"]).1,
   (claim_C8_server_confirmed_delete "boom" "a" ["a"] [sampleVid "b"]).2.2.2.1
     (sampleVid "b") (by decide),
   (claim_C8_server_confirmed_delete "boom" "a" ["a"] [sampleVid "b"]).2.2.2.2.1
     (sampleVid "b") (by decide) (by decide)⟩

/-- Claim C10 (implicit): when the profile query of `fetchBalance` returns
an error object or the call throws, the cached balance is set to `0` —
not preserved from the previous value and not set to null — so a failed
fetch is indistinguishable from a genuine zero balance. -/
theorem claim_C10_balance_error_zero (s : BalanceState)
    (h : s.fetching = false) :
    (fetchBalance true BalanceOutcome.queryError s).1.balance = some 0 ∧
    (fetchBalance true BalanceOutcome.thrown s).1.balance = some 0 := by
  constructor <;> simp [fetchBalance, h]

/-- Witness for C10: a failing fetch overwrites a cached balance of 5
with 0. -/
theorem claim_C10_balance_error_zero_witness :
    (fetchBalance true BalanceOutcome.queryError
      { balance := some 5, loading := false, fetching := false }).1.balance
        = some 0 ∧
    (fetchBalance true BalanceOutcome.thrown
      { balance := some 5, loading := false, fetching := false }).1.balance
        = some 0 :=
  claim_C10_balance_error_zero
    { balance := some 5, loading := false, fetching := false } rfl

/-- Claim C7: a `TOKEN_REFRESHED` auth event arriving while a realtime
subscription already exists for the current session user is a complete
no-op: the listener issues no teardown and no subscribe call, and the
video collection, pagination cursor and `hasMore` flag are left
unchanged. -/
theorem claim_C7_token_refresh_noop (s : RtState) (h : s.subExists = true) :
    onAuthStateChange AuthEvent.tokenRefreshed true s = s := by
  simp [onAuthStateChange, h]

/-- Witness for C7: a token refresh over a live subscription with a
one-entry collection changes nothing. -/
theorem claim_C7_token_refresh_noop_witness :
    onAuthStateChange AuthEvent.tokenRefreshed true
      { subExists := true, teardowns := 0, subscribeCalls := 1
        videos := [sampleVid "b"], offset := 10, hasMore := true } =
      { subExists := true, teardowns := 0, subscribeCalls := 1
        videos := [sampleVid "b"], offset := 10, hasMore := true } :=
  claim_C7_token_refresh_noop _ rfl

/-- Counterexample to C5: two overlapping `subscribeAndFetch` calls, the
second issued before the first subscription is confirmed (so before the
status callback sets `isSubscribed`), create two channels, not one: the
already-subscribed flag is only set on `SUBSCRIBED`. -/
theorem claim_C5_counterexample :
    (subscribeAndFetch (subscribeAndFetch
      { isSubscribed := false, channels := 0 })).channels = 2 := rfl

/-- Amended C5: a second subscribe call issued after the first
subscription has reached ready (the status callback has set
`isSubscribed`) creates no new channel. -/
theorem claim_C5_subscribe_after_ready (s : SubState)
    (h : s.isSubscribed = true) :
    subscribeAndFetch s = s := by
  simp [subscribeAndFetch, h]

/-- Witness for amended C5: with one ready channel, a repeated subscribe
call is a no-op. -/
theorem claim_C5_subscribe_after_ready_witness :
    subscribeAndFetch { isSubscribed := true, channels := 1 } =
      { isSubscribed := true, channels := 1 } :=
  claim_C5_subscribe_after_ready _ rfl

/-- Counterexample to C4: with a reset fetch in flight (`loading = true`),
a second `fetchVideos(true)` call is not a no-op: it issues a second
backend query (second component `true`) and rewrites the state. -/
theorem claim_C4_counterexample :
    (fetchVideosStart true true
      { videos := [], loading := true, loadingMore := false
        hasMore := false, offset := 5, error := none }).2 = true ∧
    (fetchVideosStart true true
      { videos := [], loading := true, loadingMore := false
        hasMore := false, offset := 5, error := none }).1 ≠
      { videos := [], loading := true, loadingMore := false
        hasMore := false, offset := 5, error := none } := by
  exact ⟨rfl, by decide⟩

/-- Amended C4: the Balance Store operation `fetchBalance` is guarded by the
`fetchingRef` busy flag (a re-entrant call is a no-op issuing no query),
and in the Video List Store only `loadMore` is guarded (a call while any
fetch is in flight is a no-op); a direct `fetchVideos` call has no busy
flag. -/
theorem claim_C4_busy_guards (s : BalanceState) (t : StoreState)
    (o : BalanceOutcome) (hasUser : Bool)
    (backend : Except String (List VideoRecord))
    (resolve : VideoRecord → Except Unit String)
    (hb : s.fetching = true) (hm : t.loadingMore = true ∨ t.loading = true) :
    fetchBalance true o s = (s, false) ∧
    loadMore hasUser backend resolve t = (t, false) := by
  constructor
  · simp [fetchBalance, hb]
  · rcases hm with h | h <;> simp [loadMore, h]

/-- Witness for amended C4: with a balance fetch and a page fetch both in
flight, the re-entrant calls are no-ops. -/
theorem claim_C4_busy_guards_witness :
    fetchBalance true BalanceOutcome.queryError
      { balance := none, loading := true, fetching := true } =
      ({ balance := none, loading := true, fetching := true }, false) ∧
    loadMore true (Except.ok []) noResolve
      { videos := [], loading := false, loadingMore := true
        hasMore := true, offset := 0, error := none } =
      ({ videos := [], loading := false, loadingMore := true
         hasMore := true, offset := 0, error := none }, false) :=
  claim_C4_busy_guards _ _ _ _ _ _ rfl (Or.inl rfl)

/-- Claim C9: a non-reset page fetch that returns fewer than
`VIDEOS_PER_PAGE` (10) rows sets `hasMore` to false, and any `loadMore`
call on a state with `hasMore = false` is a no-op: the state (collection
included) is returned unchanged and no fetch is started — so every
subsequent `loadMore` stays a no-op. -/
theorem claim_C9_pagination_terminates (rows : List VideoRecord)
    (resolve : VideoRecord → Except Unit String) (s : StoreState)
    (hlen : rows.length < VIDEOS_PER_PAGE) :
    (fetchVideos true false (Except.ok rows) resolve s).hasMore = false ∧
    (∀ (t : StoreState) (hasUser : Bool)
        (backend : Except String (List VideoRecord))
        (res2 : VideoRecord → Except Unit String), t.hasMore = false →
        loadMore hasUser backend res2 t = (t, false)) := by
  constructor
  · simp [fetchVideos, hlen]
  · intro t hasUser backend res2 ht
    simp [loadMore, ht]

/-- Witness for C9: an empty final page flips `hasMore` off, after which
`loadMore` returns the state unchanged without fetching. -/
theorem claim_C9_pagination_terminates_witness :
    (fetchVideos true false (Except.ok []) noResolve initialState).hasMore
      = false ∧
    loadMore true (Except.ok []) noResolve
      { videos := [sampleVid "b"], loading := false, loadingMore := false
        hasMore := false, offset := 1, error := none } =
      ({ videos := [sampleVid "b"], loading := false, loadingMore := false
         hasMore := false, offset := 1, error := none }, false) :=
  ⟨(claim_C9_pagination_terminates [] noResolve initialState (by decide)).1,
   (claim_C9_pagination_terminates [] noResolve initialState (by decide)).2
     _ true (Except.ok []) noResolve rfl⟩

theorem processOne_loading (resolve : VideoRecord → Except Unit String)
    (v : VideoRecord) :
    (processOne resolve v).signed_url_loading = some false := by
  unfold processOne
  split
  · split <;> rfl
  · rfl

theorem processVideos_eq_map (resolve : VideoRecord → Except Unit String)
    (l : List VideoRecord) :
    processVideosWithSignedUrls resolve l = l.map (processOne resolve) := by
  induction l using processVideosWithSignedUrls.induct resolve with
  | case1 => simp [processVideosWithSignedUrls]
  | case2 a as ih =>
      rw [processVideosWithSignedUrls, ih, ← List.map_append,
        List.take_append_drop]

theorem loading_map_cleared (i : String) (rep : VideoRecord → VideoRecord)
    (hrep : ∀ x, (rep x).signed_url_loading = some false)
    (l : List VideoRecord) :
    ∀ v ∈ l.map (fun x => if x.id == i then rep x else x),
      v.id = i → v.signed_url_loading = some false := by
  intro v hv hid
  obtain ⟨x, _hx, rfl⟩ := List.mem_map.mp hv
  by_cases h : (x.id == i) = true
  · simp only [if_pos h]
    exact hrep x
  · simp only [if_neg h] at hid ⊢
    exact absurd (by simp [hid]) h

/-- Claim C3: no resolution path leaves `signed_url_loading` stuck true.
The page-fetch enrichment returns every record with the flag false in all
its branches (success, failure, not-completed), and each of the two UPDATE
handler branches that sets the flag true for a record ends, for both the
resolution success continuation and the failure handler, with the flag
false for that record. -/
theorem claim_C3_loading_always_cleared
    (resolve : VideoRecord → Except Unit String) (l prev : List VideoRecord)
    (data : VideoRecord) (r : BRecord) (outcome : Except Unit String) :
    (∀ v ∈ processVideosWithSignedUrls resolve l,
        v.signed_url_loading = some false) ∧
    (∀ v ∈ updateRefetchTail data outcome prev,
        v.id = data.id → v.signed_url_loading = some false) ∧
    (∀ v ∈ updateDirectTail r outcome prev,
        v.id = r.id → v.signed_url_loading = some false) := by
  refine ⟨?_, ?_, ?_⟩
  · intro v hv
    rw [processVideos_eq_map] at hv
    obtain ⟨w, _hw, rfl⟩ := List.mem_map.mp hv
    exact processOne_loading resolve w
  · simp only [updateRefetchTail]
    split
    · cases outcome with
      | ok url => exact loading_map_cleared data.id _ (fun x => rfl) _
      | error e => exact loading_map_cleared data.id _ (fun x => rfl) _
    · exact loading_map_cleared data.id _ (fun x => rfl) _
  · simp only [updateDirectTail]
    cases outcome with
    | ok url => exact loading_map_cleared r.id _ (fun x => rfl) _
    | error e => exact loading_map_cleared r.id _ (fun x => rfl) _

/-- Witness for C3: a concrete one-record collection, run through the
enrichment pipeline and through both UPDATE resolution branches with a
failing resolver, ends with the loading flag false each time. -/
theorem claim_C3_loading_always_cleared_witness :
    (processOne noResolve (sampleDone "c")).signed_url_loading = some false ∧
    (sampleDone "c").signed_url_loading = some false ∧
    (sampleVid "a").signed_url_loading = some false := by
  refine ⟨?_, ?_, ?_⟩
  · exact (claim_C3_loading_always_cleared noResolve [sampleDone "c"]
      [] (sampleDone "c") (bareRow "a") (Except.error ())).1
      (processOne noResolve (sampleDone "c"))
      (by rw [processVideos_eq_map]
          exact List.mem_map_of_mem _ (List.mem_singleton.mpr rfl))
  · exact (claim_C3_loading_always_cleared noResolve [sampleDone "c"]
      [sampleDone "c"] (sampleDone "c") (bareRow "a") (Except.error ())).2.1
      (sampleDone "c") (by decide) (by decide)
  · exact (claim_C3_loading_always_cleared noResolve [sampleDone "c"]
      [sampleVid "a"] (sampleDone "c") (bareRow "a") (Except.error ())).2.2
      (sampleVid "a") (by decide) (by decide)

/-- Claim C6: when a realtime UPDATE merge moves the status of a record to any
status other than `"completed"` (over the spec's status domain `queued`,
`processing`, `failed`), the merged record ends with a null signed URL and
a cleared loading flag. -/
theorem claim_C6_status_clears_url (r : BRecord) (st : String)
    (prev : List VideoRecord)
    (hst : r.status = JField.val st)
    (henum : st = "queued" ∨ st = "processing" ∨ st = "failed") :
    ∀ v ∈ applyUpdate r prev, v.id = r.id →
      v.signed_url = none ∧ v.signed_url_loading = some false := by
  intro v hv hid
  obtain ⟨x, _hx, rfl⟩ := List.mem_map.mp hv
  by_cases h : (x.id == r.id) = true
  · simp only [if_pos h]
    have hcond :
        (r.status.truthyStr && !(r.status == JField.val "completed")) = true := by
      rcases henum with h1 | h1 | h1 <;> subst h1 <;> rw [hst] <;> decide
    simp [updateMerge, hcond]
  · simp only [if_neg h] at hid ⊢
    exact absurd (by simp [hid]) h

/-- Witness for C6: an UPDATE payload with status `"failed"` merged over a
completed record with a signed URL clears both the URL and the loading
flag. -/
theorem claim_C6_status_clears_url_witness :
    (updateMerge { bareRow "a" with status := JField.val "failed" }
        (sampleDone "a")).signed_url = none ∧
    (updateMerge { bareRow "a" with status := JField.val "failed" }
        (sampleDone "a")).signed_url_loading = some false :=
  claim_C6_status_clears_url
    { bareRow "a" with status := JField.val "failed" } "failed"
    [sampleDone "a"] rfl (Or.inr (Or.inr rfl))
    (updateMerge { bareRow "a" with status := JField.val "failed" }
      (sampleDone "a"))
    (by decide) (by decide)

theorem optTruthy_isSome (o : Option String) (h : optTruthy o = true) :
    o.isSome = true := by
  cases o with
  | none => exact absurd h (by simp [optTruthy])
  | some s => rfl

theorem recUrlInv_processOne (resolve : VideoRecord → Except Unit String)
    (v : VideoRecord) : recUrlInv (processOne resolve v) = true := by
  unfold processOne
  by_cases h : (v.status == some "completed" && optTruthy v.bucket_path) = true
  · rw [if_pos h]
    rw [Bool.and_eq_true] at h
    cases hres : resolve v with
    | ok url => simp [recUrlInv, h.1, optTruthy_isSome _ h.2]
    | error e => simp [recUrlInv, h.1, optTruthy_isSome _ h.2]
  · rw [if_neg h]
    simp [recUrlInv]

theorem wf_spread_inv (r : BRecord) (h : wfRow r = true)
    (su st bp : Option String) :
    (!(r.signed_url.spread su).isSome ||
      ((r.status.spread st) == some "completed" &&
        (r.bucket_path.spread bp).isSome)) = true := by
  unfold wfRow at h
  cases hsu : r.signed_url with
  | absent => rw [hsu] at h; exact absurd h (by simp)
  | null => simp [JField.spread]
  | val u =>
      rw [hsu, Bool.and_eq_true, Bool.and_eq_true] at h
      obtain ⟨⟨-, hst⟩, hbp⟩ := h
      have hst2 : r.status = JField.val "completed" := eq_of_beq hst
      cases hbpc : r.bucket_path with
      | absent => rw [hbpc] at hbp; exact absurd hbp (by simp)
      | null => rw [hbpc] at hbp; exact absurd hbp (by simp)
      | val p => simp [JField.spread, hst2]

theorem recUrlInv_insertMerge (r : BRecord) (v : VideoRecord)
    (h : wfRow r = true) : recUrlInv (insertMerge r v) = true := by
  have hs := wf_spread_inv r h v.signed_url v.status v.bucket_path
  simpa [recUrlInv, insertMerge] using hs

theorem recUrlInv_updateMerge (r : BRecord) (v : VideoRecord)
    (h : wfRow r = true) : recUrlInv (updateMerge r v) = true := by
  have hs := wf_spread_inv r h v.signed_url v.status v.bucket_path
  simp only [updateMerge]
  split
  · simp [recUrlInv]
  · split
    · simpa [recUrlInv] using hs
    · simpa [recUrlInv] using hs

theorem recUrlInv_defaultRecord (r : BRecord) (now : String)
    (h : wfRow r = true) : recUrlInv (defaultRecord r now) = true := by
  unfold wfRow at h
  cases hsu : r.signed_url with
  | absent => rw [hsu] at h; exact absurd h (by simp)
  | null => simp [recUrlInv, defaultRecord, JField.orNullStr, hsu]
  | val u =>
      rw [hsu, Bool.and_eq_true, Bool.and_eq_true] at h
      obtain ⟨⟨hu, hst⟩, hbp⟩ := h
      have hst2 : r.status = JField.val "completed" := eq_of_beq hst
      cases hbpc : r.bucket_path with
      | absent => rw [hbpc] at hbp; exact absurd hbp (by simp)
      | null => rw [hbpc] at hbp; exact absurd hbp (by simp)
      | val p =>
          rw [hbpc] at hbp
          have hu2 : (u == "") = false := by simpa using hu
          have hp2 : (p == "") = false := by simpa using hbp
          simp [recUrlInv, defaultRecord, JField.orNullStr, JField.orStr,
            hsu, hst2, hbpc, hu2, hp2]

theorem all_recUrlInv_processVideos
    (resolve : VideoRecord → Except Unit String) (rows : List VideoRecord) :
    (processVideosWithSignedUrls resolve rows).all recUrlInv = true := by
  rw [processVideos_eq_map, List.all_map]
  apply List.all_eq_true.mpr
  intro x _hx
  exact recUrlInv_processOne resolve x

theorem all_filter_of_all (l : List VideoRecord)
    (p q : VideoRecord → Bool) (h : l.all p = true) :
    (l.filter q).all p = true := by
  rw [List.all_eq_true] at h ⊢
  intro x hx
  exact h x (List.mem_of_mem_filter hx)

theorem storeUrlInv_fetchVideos (u rst : Bool)
    (b : Except String (List VideoRecord))
    (res : VideoRecord → Except Unit String) (s : StoreState)
    (h : storeUrlInv s = true) :
    storeUrlInv (fetchVideos u rst b res s) = true := by
  unfold storeUrlInv at h ⊢
  cases u with
  | false => simpa [fetchVideos] using h
  | true =>
      cases b with
      | error msg => cases rst <;> simpa [fetchVideos] using h
      | ok rows =>
          have hall := all_recUrlInv_processVideos res rows
          have hfil := all_filter_of_all (processVideosWithSignedUrls res rows)
            recUrlInv (fun v => !(s.videos.any (fun w => w.id == v.id))) hall
          by_cases hlen : rows.length < VIDEOS_PER_PAGE <;>
            cases rst <;>
              simp [fetchVideos, hlen, List.all_append, h, hall, hfil]

theorem storeUrlInv_runOp (op : StoreOp) (s : StoreState)
    (hwf : opWF op) (h : storeUrlInv s = true) :
    storeUrlInv (runOp op s) = true := by
  cases op with
  | fetch u rst b res => exact storeUrlInv_fetchVideos u rst b res s h
  | ins r now =>
      unfold storeUrlInv at h ⊢
      show (applyInsert r now s.videos).all recUrlInv = true
      unfold applyInsert
      split
      · rw [List.all_eq_true]
        intro x hx
        obtain ⟨w, hw, rfl⟩ := List.mem_map.mp hx
        by_cases hid : (w.id == r.id) = true
        · rw [if_pos hid]
          exact recUrlInv_insertMerge r w hwf
        · rw [if_neg hid]
          exact List.all_eq_true.mp h w hw
      · rw [List.all_cons, Bool.and_eq_true]
        exact ⟨recUrlInv_defaultRecord r now hwf, h⟩
  | upd r =>
      unfold storeUrlInv at h ⊢
      show (applyUpdate r s.videos).all recUrlInv = true
      unfold applyUpdate
      rw [List.all_eq_true]
      intro x hx
      obtain ⟨w, hw, rfl⟩ := List.mem_map.mp hx
      by_cases hid : (w.id == r.id) = true
      · rw [if_pos hid]
        exact recUrlInv_updateMerge r w hwf
      · rw [if_neg hid]
        exact List.all_eq_true.mp h w hw
  | del i =>
      unfold storeUrlInv at h ⊢
      show (applyDelete i s.videos).all recUrlInv = true
      exact all_filter_of_all s.videos recUrlInv _ h

theorem storeUrlInv_runOps (ops : List StoreOp) (s : StoreState)
    (hwf : ∀ op ∈ ops, opWF op) (h : storeUrlInv s = true) :
    storeUrlInv (runOps ops s) = true := by
  induction ops generalizing s with
  | nil => simpa [runOps] using h
  | cons op rest ih =>
      exact ih (runOp op s)
        (fun o ho => hwf o (List.mem_cons_of_mem _ ho))
        (storeUrlInv_runOp op s (hwf op (List.mem_cons_self _ _)) h)

/-- Counterexample to C2: the default construction of the INSERT handler trusts
a partial broadcast payload that carries a signed URL but no status:
applying it to the initial empty store yields a reachable state holding a
record with a non-null `signed_url`, status `"processing"` and a null
`bucket_path`, violating the claimed invariant. -/
theorem claim_C2_counterexample :
    storeUrlInv (runOps [StoreOp.ins urlOnlyRow "t"] initialState) = false ∧
    (runOps [StoreOp.ins urlOnlyRow "t"] initialState).videos.all
        (fun v => !(v.signed_url == some "u") ||
          (v.status == some "processing" && v.bucket_path == none)) = true := by
  exact ⟨rfl, rfl⟩

/-- Amended C2: in every state reachable by the store operations
(paginated fetch, applyInsert, applyUpdate, applyDelete) from the initial
empty state, every record with a non-null `signed_url` has status
`"completed"` and a non-null `bucket_path` — provided each delivered
realtime payload row is well-formed: its `signed_url` field is present,
and carries a non-empty URL only together with status `"completed"` and a
non-empty `bucket_path` (the property the backend full-row broadcasts
satisfy).  Fetched pages are unrestricted: the enrichment pipeline
sanitizes them. -/
theorem claim_C2_url_inv (ops : List StoreOp)
    (hwf : ∀ op ∈ ops, opWF op) :
    storeUrlInv (runOps ops initialState) = true :=
  storeUrlInv_runOps ops initialState hwf rfl

/-- A full completed broadcast row, well-formed in the sense of `wfRow`. -/
def fullDoneRow : BRecord :=
  { bareRow "b" with
      status := JField.val "completed",
      bucket_path := JField.val "v/b.mp4",
      signed_url := JField.val "https://s" }

/-- A well-formed failed broadcast row with an explicit null signed URL. -/
def clearRow : BRecord :=
  { bareRow "b" with
      status := JField.val "failed",
      signed_url := JField.null }

/-- Witness for amended C2: a well-formed completed INSERT, a well-formed
UPDATE and a DELETE replayed from the initial state keep the invariant. -/
theorem claim_C2_url_inv_witness :
    storeUrlInv (runOps
      [StoreOp.ins fullDoneRow "t", StoreOp.upd clearRow, StoreOp.del "z"]
      initialState) = true :=
  claim_C2_url_inv _
    (by intro op hop
        fin_cases hop <;> simp only [opWF] <;> trivial)

